import Mathlib

/-!
Verification of the asynchronous task-execution engine of
`agents/async_agent/async_task_system.py` (class `TaskManager` and its
helpers).  The Python code is shallowly embedded: the mutable
`TaskManager` object becomes an explicit state record, Python dicts become
insertion-ordered association lists, `time.time()` readings become natural
numbers supplied by the environment (constrained to be monotone through a
`clock` field), and raised Python exceptions become `Except` values
carrying the exception class name and message.
-/

namespace AsyncTaskSystem

/-- Task lifecycle states, one per member of the Python `TaskStatus` enum. -/
inductive TaskStatus where
  | pending
  | running
  | completed
  | failed
deriving DecidableEq, Repr

/-- Opaque runtime values exchanged with tools and agents (arguments and
results are `Any` in the Python source; this type is just a concrete carrier
with decidable equality). -/
inductive Value where
  | vint : Int → Value
  | vstr : String → Value
  | vnone : Value
deriving DecidableEq, Repr

/-- Arguments of a task: the Python code distinguishes a `dict` of keyword
arguments (forwarded with double-star unpacking) from any other value
(forwarded as a single positional argument). -/
inductive Args where
  | keyed : List (String × Value) → Args
  | positional : Value → Args
deriving DecidableEq, Repr

/-- A raised Python exception, reduced to its class name and its message
(what `type(e).__name__` and `str(e)` produce). -/
structure PyErr where
  kind : String
  msg : String
deriving DecidableEq, Repr

/-- Opaque OpenTelemetry context handle captured at submission time; the
engine never inspects it. -/
structure OtelCtx where
  ctxId : Nat
deriving DecidableEq, Repr

/-- The `TaskInfo` dataclass of the source file. -/
structure TaskInfo where
  task_id : String
  task_type : String
  target_name : String
  arguments : Args
  status : TaskStatus
  created_at : Nat
  started_at : Option Nat := none
  completed_at : Option Nat := none
  result : Option Value := none
  error : Option String := none
  otel_context : Option OtelCtx := none
deriving DecidableEq, Repr

/-- Behaviour of a registered invocable: a call either returns a value or
raises an exception. Tools and (constructed) managed agents share this
shape. -/
def ToolFn : Type := Args → Except PyErr Value

/-- A managed-agent registry entry: the identity of the instance registered
by the caller, together with the outcome of re-running its constructor from
the captured `_agent_init_params` snapshot (either a fresh behaviour, or the
exception the constructor raises). -/
structure AgentEntry where
  original_id : Nat
  construct : Except PyErr ToolFn

/-- State of a `TaskManager` object.  `next_obj_id` is an allocation
counter modelling Python object identity: every freshly constructed agent
instance receives the current counter value.  `clock` records the last
`time.time()` reading handed to the engine, so that timestamp monotonicity
can be expressed. -/
structure TaskManager where
  task_queue : List String
  task_results : List (String × TaskInfo)
  tools : List (String × ToolFn)
  managed_agents : List (String × AgentEntry)
  max_workers : Nat
  running : Bool
  total_submitted : Nat
  total_completed : Nat
  total_failed : Nat
  next_obj_id : Nat
  clock : Nat

/-- The `TaskManager.__init__` constructor. -/
def TaskManager.init (max_workers : Nat) : TaskManager :=
  { task_queue := []
    task_results := []
    tools := []
    managed_agents := []
    max_workers := max_workers
    running := false
    total_submitted := 0
    total_completed := 0
    total_failed := 0
    next_obj_id := 0
    clock := 0 }

/-- Python `d[k] = v` on an insertion-ordered dict: replace in place when
the key exists, append otherwise. -/
def dictInsert {α : Type} (m : List (String × α)) (k : String) (v : α) :
    List (String × α) :=
  if m.any (fun p => p.1 == k) then
    m.map (fun p => if p.1 == k then (k, v) else p)
  else
    m ++ [(k, v)]

/-- Python `d.update(new)`: insert every binding of `new` in order. -/
def dictUpdate {α : Type} (m new : List (String × α)) : List (String × α) :=
  new.foldl (fun acc p => dictInsert acc p.1 p.2) m

/-- In-place mutation of the task object stored under `id` (the Python
worker holds a reference to the very object sitting in `task_results`). -/
def setTask (m : List (String × TaskInfo)) (id : String)
    (f : TaskInfo → TaskInfo) : List (String × TaskInfo) :=
  m.map (fun p => if p.1 = id then (p.1, f p.2) else p)

/-- The `register_tools` method: merge the given map into the tool
registry. -/
def register_tools (tm : TaskManager) (ts : List (String × ToolFn)) :
    TaskManager :=
  { tm with tools := dictUpdate tm.tools ts }

/-- The `register_managed_agents` method, for a single named agent: record
the instance (its identity is a freshly allocated object id) together with
the constructor snapshot extracted by `_extract_agent_init_params`, here
abstracted as the `Except` outcome of re-running the constructor on that
snapshot. -/
def register_managed_agent (tm : TaskManager) (name : String)
    (construct : Except PyErr ToolFn) : TaskManager :=
  { tm with
    managed_agents :=
      dictInsert tm.managed_agents name ⟨tm.next_obj_id, construct⟩
    next_obj_id := tm.next_obj_id + 1 }

/-- The `start` method (thread bookkeeping aside): idempotent flag flip. -/
def TaskManager.start (tm : TaskManager) : TaskManager :=
  if tm.running then tm else { tm with running := true }

/-- The `stop` method: idempotent flag flip. -/
def TaskManager.stop (tm : TaskManager) : TaskManager :=
  if tm.running then { tm with running := false } else tm

/-- Message of the `RuntimeError` raised by `submit_task` when the engine
is not running. -/
def notRunningMsg : String := "TaskManager is not running. Call start() first."

/-- Message raised when a managed-agent name is submitted with
`task_type="tool"`. -/
def agentNotToolMsg (name : String) : String :=
  "\x27" ++ name ++ "\x27 is a managed agent, not a tool. " ++
    "Please use task_type=\x27managed_agent\x27 instead of \x27tool\x27.\n"

/-- Message raised when a tool name is simply absent from both registries
on a `task_type="tool"` submission. -/
def toolNotFoundMsg (name : String) : String :=
  "Tool \x27" ++ name ++ "\x27 not found.\n"

/-- Message raised when a tool name is submitted with
`task_type="managed_agent"`. -/
def toolNotAgentMsg (name : String) : String :=
  "\x27" ++ name ++ "\x27 is a tool, not a managed agent. " ++
    "Please use task_type=\x27tool\x27 instead of \x27managed_agent\x27.\n"

/-- Message raised when an agent name is absent from both registries on a
`task_type="managed_agent"` submission. -/
def agentNotFoundMsg (name : String) : String :=
  "Managed agent \x27" ++ name ++ "\x27 not found.\n"

/-- Message raised for a `task_type` that is neither known variant. -/
def invalidKindMsg (kind : String) : String :=
  "Invalid task_type \x27" ++ kind ++
    "\x27. Must be \x27tool\x27 or \x27managed_agent\x27."

/-- Message of the `ValueError` raised by `_create_agent_copy` when no
snapshot exists for the requested agent name. -/
def noInitParamsMsg (name : String) : String :=
  "No init params found for agent \x27" ++ name ++ "\x27"

/-- Message of the `RuntimeError` wrapping a constructor failure inside
`_create_agent_copy`. -/
def createCopyFailedMsg (msg : String) : String :=
  "Failed to create agent copy: " ++ msg

/-- Message recorded by `_execute_task` for the `UnboundLocalError`
incomplete-execution case. -/
def incompleteExecMsg (orig : String) : String :=
  "Agent execution incomplete: The agent encountered an error before " ++
    "generating a final answer. This usually means the agent hit an error " ++
    "during execution or needs more steps. Original error: " ++ orig

/-- Target validation of `submit_task` (lines 230-257 of the source):
`none` means the submission may proceed, `some e` is the exception raised
synchronously to the caller. -/
def validateTarget (tm : TaskManager) (task_type target_name : String) :
    Option PyErr :=
  if task_type == "tool" then
    if (tm.tools.lookup target_name).isSome then none
    else if (tm.managed_agents.lookup target_name).isSome then
      some ⟨"ValueError", agentNotToolMsg target_name⟩
    else some ⟨"ValueError", toolNotFoundMsg target_name⟩
  else if task_type == "managed_agent" then
    if (tm.managed_agents.lookup target_name).isSome then none
    else if (tm.tools.lookup target_name).isSome then
      some ⟨"ValueError", toolNotAgentMsg target_name⟩
    else some ⟨"ValueError", agentNotFoundMsg target_name⟩
  else some ⟨"ValueError", invalidKindMsg task_type⟩

/-- The `submit_task` method.  `genId` stands for the `str(uuid.uuid4())`
value generated when the caller supplies no id; `ctx` is the ambient
OpenTelemetry context at the call site (`none` when tracing is absent or
capture fails); `now` is the `time.time()` reading.  The first component is
the synchronous outcome (returned id or raised exception), the second the
resulting engine state. -/
def submit_task (tm : TaskManager) (task_type target_name : String)
    (arguments : Args) (task_id : Option String) (genId : String)
    (ctx : Option OtelCtx) (now : Nat) :
    Except PyErr String × TaskManager :=
  if tm.running = false then
    (.error ⟨"RuntimeError", notRunningMsg⟩, tm)
  else
    let tid := task_id.getD genId
    match validateTarget tm task_type target_name with
    | some e => (.error e, tm)
    | none =>
      let t : TaskInfo :=
        { task_id := tid
          task_type := task_type
          target_name := target_name
          arguments := arguments
          status := .pending
          created_at := now
          otel_context := ctx }
      (.ok tid,
        { tm with
          task_results := dictInsert tm.task_results tid t
          total_submitted := tm.total_submitted + 1
          task_queue := tm.task_queue ++ [tid]
          clock := now })

/-- The `get_task_result` method. -/
def get_task_result (tm : TaskManager) (id : String) : Option TaskInfo :=
  tm.task_results.lookup id

/-- The `get_task_status` method. -/
def get_task_status (tm : TaskManager) (id : String) : Option TaskStatus :=
  (get_task_result tm id).map (·.status)

/-- The `list_tasks` method: snapshot the table values, filter by status
when a filter is given, and stable-sort by `created_at` descending (Python
`sorted(..., key=lambda x: x.created_at, reverse=True)`). -/
def list_tasks (tm : TaskManager) (status_filter : Option TaskStatus) :
    List TaskInfo :=
  let tasks : List TaskInfo := tm.task_results.map Prod.snd
  let tasks2 : List TaskInfo :=
    match status_filter with
    | some s => tasks.filter (fun t => decide (t.status = s))
    | none => tasks
  tasks2.mergeSort (fun a b => decide (b.created_at ≤ a.created_at))

/-- Return shape of `get_statistics`. -/
structure Statistics where
  total_submitted : Nat
  total_completed : Nat
  total_failed : Nat
  pending : Nat
  running : Nat
  available_tools : List String
  available_agents : List String
deriving DecidableEq, Repr

/-- The `get_statistics` method: `pending` and `running` are recomputed by
scanning the table, the three totals are the stored counters. -/
def get_statistics (tm : TaskManager) : Statistics :=
  { total_submitted := tm.total_submitted
    total_completed := tm.total_completed
    total_failed := tm.total_failed
    pending :=
      tm.task_results.countP (fun p => decide (p.2.status = .pending))
    running :=
      tm.task_results.countP (fun p => decide (p.2.status = .running))
    available_tools := tm.tools.map (·.1)
    available_agents := tm.managed_agents.map (·.1) }

/-- The in-place mutation performed by lines 356-358 of `_execute_task`:
mark the task running and record `started_at`. -/
def markRunning (now : Nat) (u : TaskInfo) : TaskInfo :=
  { u with status := .running, started_at := some now }

/-- First half of `_execute_task` (lines 356-358): a worker takes the task
off the queue, marks it running and records `started_at`. -/
def startTask (tm : TaskManager) (id : String) (now : Nat) : TaskManager :=
  { tm with
    task_results := setTask tm.task_results id (markRunning now)
    task_queue := tm.task_queue.erase id
    clock := now }

/-- What happened while resolving and invoking one task body
(lines 362-381 of `_execute_task`). -/
structure ExecOutcome where
  callInput : Option Args
  freshInstance : Option Nat
  newArgs : Args
  result : Except PyErr Value

/-- Python `"max_steps" in arguments`. -/
def containsKey (m : List (String × Value)) (k : String) : Bool :=
  m.any (fun p => p.1 == k)

/-- The managed-agent default step budget injection
(`task_info.arguments["max_steps"] = 20` when the key is absent). -/
def injectMaxSteps (m : List (String × Value)) : List (String × Value) :=
  if containsKey m "max_steps" then m else m ++ [("max_steps", Value.vint 20)]

/-- Resolution and invocation of one task body, mirroring lines 362-381 of
`_execute_task` together with `_create_agent_copy`: look the invocable up,
for a managed agent re-run the constructor on the snapshot (wrapping a
constructor failure in a `RuntimeError`), inject the default `max_steps`
into keyword arguments of an agent call, and forward keyword arguments with
double-star unpacking or anything else as one positional argument.
`freshInstance` is the object id of the agent instance constructed for this
call, `newArgs` the (possibly mutated) argument object, `callInput` what the
invocable was actually called with (`none` when no call happened). -/
def runInvocable (tm : TaskManager) (t : TaskInfo) : ExecOutcome :=
  if t.task_type == "tool" then
    match tm.tools.lookup t.target_name with
    | some tool =>
      { callInput := some t.arguments
        freshInstance := none
        newArgs := t.arguments
        result := tool t.arguments }
    | none =>
      { callInput := none
        freshInstance := none
        newArgs := t.arguments
        result := .error ⟨"KeyError", "\x27" ++ t.target_name ++ "\x27"⟩ }
  else if t.task_type == "managed_agent" then
    match tm.managed_agents.lookup t.target_name with
    | none =>
      { callInput := none
        freshInstance := none
        newArgs := t.arguments
        result := .error ⟨"ValueError", noInitParamsMsg t.target_name⟩ }
    | some entry =>
      match entry.construct with
      | .error e =>
        { callInput := none
          freshInstance := none
          newArgs := t.arguments
          result := .error ⟨"RuntimeError", createCopyFailedMsg e.msg⟩ }
      | .ok behavior =>
        match t.arguments with
        | .keyed m =>
          let injected := Args.keyed (injectMaxSteps m)
          { callInput := some injected
            freshInstance := some tm.next_obj_id
            newArgs := injected
            result := behavior injected }
        | .positional v =>
          { callInput := some (.positional v)
            freshInstance := some tm.next_obj_id
            newArgs := .positional v
            result := behavior (.positional v) }
  else
    { callInput := none
      freshInstance := none
      newArgs := t.arguments
      result := .error ⟨"ValueError", "Unknown task type: " ++ t.task_type⟩ }

/-- Error classification of `_execute_task`: the dedicated
`except UnboundLocalError` branch records the incomplete-execution message,
the catch-all branch records `type(e).__name__ + ": " + str(e)`. -/
def classifyError (e : PyErr) : String :=
  if e.kind == "UnboundLocalError" then incompleteExecMsg e.msg
  else e.kind ++ ": " ++ e.msg

/-- The terminal mutation of a successful execution: record the result. -/
def markCompleted (now : Nat) (v : Value) (a : Args) (u : TaskInfo) :
    TaskInfo :=
  { u with
    status := .completed
    completed_at := some now
    result := some v
    arguments := a }

/-- The terminal mutation of a failed execution: record the classified
error message. -/
def markFailed (now : Nat) (msg : String) (a : Args) (u : TaskInfo) :
    TaskInfo :=
  { u with
    status := .failed
    completed_at := some now
    error := some msg
    arguments := a }

/-- Recording of one execution outcome `o` on the stored task object:
the terminal transition of `_execute_task` (status, `completed_at`,
`result` or `error`, counter), together with the argument mutation
performed before the agent call and the object allocation performed by
`_create_agent_copy`. -/
def finishWith (tm : TaskManager) (id : String) (now : Nat)
    (o : ExecOutcome) : TaskManager :=
  match o.result with
  | .ok v =>
    { tm with
      task_results :=
        setTask tm.task_results id (markCompleted now v o.newArgs)
      total_completed := tm.total_completed + 1
      next_obj_id :=
        if o.freshInstance.isSome then tm.next_obj_id + 1
        else tm.next_obj_id
      clock := now }
  | .error e =>
    { tm with
      task_results :=
        setTask tm.task_results id
          (markFailed now (classifyError e) o.newArgs)
      total_failed := tm.total_failed + 1
      next_obj_id :=
        if o.freshInstance.isSome then tm.next_obj_id + 1
        else tm.next_obj_id
      clock := now }

/-- Second half of `_execute_task`: resolve and run the invocable of the
task stored under `id` and record the outcome. -/
def finishTask (tm : TaskManager) (id : String) (now : Nat) : TaskManager :=
  match tm.task_results.lookup id with
  | none => tm
  | some t => finishWith tm id now (runInvocable tm t)

/-- Internal consistency of one stored task record with respect to the
last clock reading `clk`: which optional fields are populated is determined
by the status, and the populated timestamps are ordered. -/
structure TaskWF (clk : Nat) (t : TaskInfo) : Prop where
  created_le : t.created_at ≤ clk
  started_iff : t.started_at.isSome ↔ t.status ≠ .pending
  completed_iff :
    t.completed_at.isSome ↔ (t.status = .completed ∨ t.status = .failed)
  result_iff : t.result.isSome ↔ t.status = .completed
  error_iff : t.error.isSome ↔ t.status = .failed
  started_bounds : ∀ s, t.started_at = some s → t.created_at ≤ s ∧ s ≤ clk
  completed_bounds : ∀ c, t.completed_at = some c →
    (∃ s, t.started_at = some s ∧ s ≤ c) ∧ c ≤ clk

/-- Well-formedness of an engine state: keys are unique and consistent, all
task records are internally consistent, the three monotonic counters agree
with the table, and every registered agent instance was allocated before
the current allocation counter. -/
structure WF (tm : TaskManager) : Prop where
  keys_nodup : (tm.task_results.map Prod.fst).Nodup
  key_eq : ∀ p ∈ tm.task_results, p.2.task_id = p.1
  task_wf : ∀ p ∈ tm.task_results, TaskWF tm.clock p.2
  submitted_eq : tm.total_submitted = tm.task_results.length
  completed_eq : tm.total_completed =
    tm.task_results.countP (fun p => decide (p.2.status = .completed))
  failed_eq : tm.total_failed =
    tm.task_results.countP (fun p => decide (p.2.status = .failed))
  agents_lt : ∀ p ∈ tm.managed_agents, p.2.original_id < tm.next_obj_id

/-- The engine states reachable through the public operations, with each
`time.time()` reading constrained to be monotone (`clock ≤ now`) and every
effective task id fresh (generated ids are fresh UUIDs; the model also
restricts caller-supplied ids to fresh ones, since a duplicate would
silently overwrite the previous record, which the source flags as
unvalidated).  A task body is executed in the two steps of
`_execute_task`: `begin_exec` marks a queued pending task running,
`finish_exec` runs the invocable of a running task and records the
outcome. -/
inductive Reachable : TaskManager → Prop where
  | init (n : Nat) : Reachable (TaskManager.init n)
  | start {tm : TaskManager} : Reachable tm → Reachable tm.start
  | stop {tm : TaskManager} : Reachable tm → Reachable tm.stop
  | reg_tools {tm : TaskManager} (ts : List (String × ToolFn)) :
      Reachable tm → Reachable (register_tools tm ts)
  | reg_agent {tm : TaskManager} (name : String)
      (construct : Except PyErr ToolFn) :
      Reachable tm → Reachable (register_managed_agent tm name construct)
  | submit {tm : TaskManager} (ty name : String) (args : Args)
      (tid : Option String) (genId : String) (ctx : Option OtelCtx)
      (now : Nat) :
      Reachable tm → tm.clock ≤ now →
      tm.task_results.lookup (tid.getD genId) = none →
      Reachable (submit_task tm ty name args tid genId ctx now).2
  | begin_exec {tm : TaskManager} (id : String) (now : Nat) (t : TaskInfo) :
      Reachable tm → tm.clock ≤ now →
      tm.task_results.lookup id = some t →
      t.status = .pending →
      id ∈ tm.task_queue →
      Reachable (startTask tm id now)
  | finish_exec {tm : TaskManager} (id : String) (now : Nat) (t : TaskInfo) :
      Reachable tm → tm.clock ≤ now →
      tm.task_results.lookup id = some t →
      t.status = .running →
      Reachable (finishTask tm id now)

/-- Demo tool returning a fixed value. -/
def demoTool : ToolFn := fun _ => .ok (.vint 42)

/-- Demo tool raising `ValueError("boom")` (Scenario C of the spec). -/
def boomTool : ToolFn := fun _ => .error ⟨"ValueError", "boom"⟩

/-- Behaviour of the demo managed agent once constructed. -/
def demoAgentFn : ToolFn := fun _ => .ok (.vstr "done")

/-- A started engine with two tools and one managed agent registered. -/
def demoTM : TaskManager :=
  register_managed_agent
    (register_tools (TaskManager.init 3).start
      [("double", demoTool), ("boom", boomTool)])
    "helper" (.ok demoAgentFn)

/-- The demo engine after submitting the failing tool task. -/
def demoTM1 : TaskManager :=
  (submit_task demoTM "tool" "boom" (.keyed []) none "task-1" none 5).2

/-- The demo engine once a worker has marked the task running. -/
def demoTM2 : TaskManager := startTask demoTM1 "task-1" 6

/-- The demo engine after the failing execution is recorded. -/
def demoTM3 : TaskManager := finishTask demoTM2 "task-1" 7

/-- The failed task record stored in `demoTM3`. -/
def demoFailedTask : TaskInfo :=
  { task_id := "task-1", task_type := "tool", target_name := "boom"
    arguments := .keyed [], status := .failed, created_at := 5
    started_at := some 6, completed_at := some 7, result := none
    error := some "ValueError: boom", otel_context := none }

/-- The demo engine after submitting a managed-agent task. -/
def demoAg1 : TaskManager :=
  (submit_task demoTM "managed_agent" "helper" (.keyed []) none "task-2"
    none 5).2

/-- The managed-agent demo engine once the task is marked running. -/
def demoAg2 : TaskManager := startTask demoAg1 "task-2" 6

/-- A managed-agent task value used to exercise argument forwarding. -/
def demoAgTask : TaskInfo :=
  { task_id := "t-x", task_type := "managed_agent", target_name := "helper"
    arguments := .keyed [("task", .vstr "analyse")], status := .pending
    created_at := 0 }

/-- A key is found by `lookup` exactly when some entry carries it. -/
theorem lookup_isSome_eq_any {α : Type} (m : List (String × α)) (k : String) :
    (m.lookup k).isSome = m.any (fun p => p.1 == k) := by
  induction m with
  | nil => rfl
  | cons a rest ih =>
    obtain ⟨a1, a2⟩ := a
    by_cases h : k = a1
    · subst h; simp [List.lookup]
    · have h1 : (k == a1) = false := by simp [h]
      have h2 : (a1 == k) = false := by simp [Ne.symm h]
      simp [List.lookup, h1, h2, ih]

/-- Inserting a key that is not yet present appends the binding. -/
theorem dictInsert_fresh {α : Type} (m : List (String × α)) (k : String)
    (v : α) (h : m.lookup k = none) : dictInsert m k v = m ++ [(k, v)] := by
  have hany : m.any (fun p => p.1 == k) = false := by
    rw [← lookup_isSome_eq_any, h]; rfl
  simp [dictInsert, hany]

/-- A successful lookup produces a member of the list. -/
theorem lookup_mem {α : Type} {m : List (String × α)} {k : String} {v : α}
    (h : m.lookup k = some v) : (k, v) ∈ m := by
  induction m with
  | nil => simp [List.lookup] at h
  | cons a rest ih =>
    obtain ⟨a1, a2⟩ := a
    by_cases hk : k = a1
    · subst hk
      simp [List.lookup] at h
      simp [h]
    · have h1 : (k == a1) = false := by simp [hk]
      simp [List.lookup, h1] at h
      exact List.mem_cons_of_mem _ (ih h)

/-- Lookup fails exactly when the key is absent from the key list. -/
theorem lookup_none_iff {α : Type} (m : List (String × α)) (k : String) :
    m.lookup k = none ↔ k ∉ m.map Prod.fst := by
  induction m with
  | nil => simp
  | cons a rest ih =>
    obtain ⟨a1, a2⟩ := a
    by_cases hk : k = a1
    · subst hk; simp [List.lookup]
    · have h1 : (k == a1) = false := by simp [hk]
      simp [List.lookup, h1, ih, hk]

/-- With duplicate-free keys, membership determines the lookup result. -/
theorem lookup_of_mem_nodup {α : Type} {m : List (String × α)} {k : String}
    {v : α} (hnd : (m.map Prod.fst).Nodup) (hm : (k, v) ∈ m) :
    m.lookup k = some v := by
  induction m with
  | nil => simp at hm
  | cons a rest ih =>
    obtain ⟨a1, a2⟩ := a
    simp only [List.map_cons, List.nodup_cons] at hnd
    rcases List.mem_cons.mp hm with h | h
    · have hk : k = a1 := congrArg Prod.fst h
      have hv : v = a2 := congrArg Prod.snd h
      subst hk; subst hv
      simp [List.lookup]
    · have hk : k ≠ a1 := by
        intro he; subst he
        exact hnd.1 (List.mem_map.mpr ⟨(k, v), h, rfl⟩)
      have h1 : (k == a1) = false := by simp [hk]
      simp [List.lookup, h1]
      exact ih hnd.2 h

/-- Membership after a dict insert: an element is either an untouched
original entry or the inserted binding. -/
theorem mem_dictInsert {α : Type} {m : List (String × α)} {k : String}
    {v : α} {p : String × α} (h : p ∈ dictInsert m k v) :
    p ∈ m ∨ p = (k, v) := by
  unfold dictInsert at h
  by_cases hc : m.any (fun p => p.1 == k)
  · simp only [hc, if_true] at h
    obtain ⟨q, hq, hqe⟩ := List.mem_map.mp h
    by_cases hqk : q.1 == k
    · right; rw [← hqe]; simp [hqk]
    · left; rw [← hqe]; simp [hqk]; exact hq
  · simp only [hc, if_false] at h
    rcases List.mem_append.mp h with h | h
    · exact .inl h
    · exact .inr (List.mem_singleton.mp h)

/-- Unfolding of `setTask` on a cons cell. -/
theorem setTask_cons (a : String × TaskInfo) (rest : List (String × TaskInfo))
    (id : String) (f : TaskInfo → TaskInfo) :
    setTask (a :: rest) id f =
      (if a.1 = id then (a.1, f a.2) else a) :: setTask rest id f := rfl

/-- `setTask` never changes the key list. -/
theorem setTask_map_fst (m : List (String × TaskInfo)) (id : String)
    (f : TaskInfo → TaskInfo) :
    (setTask m id f).map Prod.fst = m.map Prod.fst := by
  induction m with
  | nil => rfl
  | cons a rest ih =>
    rw [setTask_cons, List.map_cons, List.map_cons, ih]
    by_cases h : a.1 = id
    · simp [h]
    · simp [h]

/-- `setTask` preserves length. -/
theorem setTask_length (m : List (String × TaskInfo)) (id : String)
    (f : TaskInfo → TaskInfo) : (setTask m id f).length = m.length := by
  simp [setTask]

/-- `setTask` on an absent key is the identity. -/
theorem setTask_not_mem {m : List (String × TaskInfo)} {id : String}
    (f : TaskInfo → TaskInfo) (h : id ∉ m.map Prod.fst) :
    setTask m id f = m := by
  induction m with
  | nil => rfl
  | cons a rest ih =>
    simp only [List.map_cons, List.mem_cons] at h
    push_neg at h
    rw [setTask_cons, if_neg (Ne.symm h.1), ih h.2]

/-- Lookup at the updated key after `setTask`. -/
theorem lookup_setTask_self {m : List (String × TaskInfo)} {id : String}
    {t : TaskInfo} (f : TaskInfo → TaskInfo)
    (h : m.lookup id = some t) : (setTask m id f).lookup id = some (f t) := by
  induction m with
  | nil => simp [List.lookup] at h
  | cons a rest ih =>
    obtain ⟨a1, a2⟩ := a
    rw [setTask_cons]
    by_cases hk : id = a1
    · subst hk
      simp [List.lookup] at h
      subst h
      rw [if_pos rfl]
      simp [List.lookup]
    · have h1 : (id == a1) = false := by simp [hk]
      simp only [List.lookup, h1] at h
      have hne : a1 ≠ id := Ne.symm hk
      rw [if_neg hne]
      simp only [List.lookup, h1]
      exact ih h

/-- Lookup at any other key is unchanged by `setTask`. -/
theorem lookup_setTask_ne {m : List (String × TaskInfo)} {id k : String}
    (f : TaskInfo → TaskInfo) (h : k ≠ id) :
    (setTask m id f).lookup k = m.lookup k := by
  induction m with
  | nil => rfl
  | cons a rest ih =>
    obtain ⟨a1, a2⟩ := a
    rw [setTask_cons]
    by_cases h1 : a1 = id
    · subst h1
      have hk : (k == a1) = false := by simp [h]
      rw [if_pos rfl]
      simp only [List.lookup, hk]
      exact ih
    · rw [if_neg h1]
      by_cases hk : k = a1
      · subst hk
        simp [List.lookup]
      · have h3 : (k == a1) = false := by simp [hk]
        simp only [List.lookup, h3]
        exact ih

/-- Counting after an in-place update of the unique entry at `id`, stated
additively. -/
theorem countP_setTask (m : List (String × TaskInfo)) (id : String)
    (f : TaskInfo → TaskInfo) (q : String × TaskInfo → Bool) {t : TaskInfo}
    (hnd : (m.map Prod.fst).Nodup) (hl : m.lookup id = some t) :
    (setTask m id f).countP q + (if q (id, t) then 1 else 0) =
      m.countP q + (if q (id, f t) then 1 else 0) := by
  induction m with
  | nil => simp [List.lookup] at hl
  | cons a rest ih =>
    obtain ⟨a1, a2⟩ := a
    simp only [List.map_cons, List.nodup_cons] at hnd
    rw [setTask_cons]
    by_cases hk : id = a1
    · subst hk
      simp [List.lookup] at hl
      subst hl
      have hrest : setTask rest id f = rest := setTask_not_mem f hnd.1
      rw [if_pos rfl, hrest]
      simp only [List.countP_cons]
      by_cases hq1 : q (id, a2) <;> by_cases hq2 : q (id, f a2) <;>
        simp [hq1, hq2] <;> omega
    · have h1 : (id == a1) = false := by simp [hk]
      simp only [List.lookup, h1] at hl
      have := ih hnd.2 hl
      rw [if_neg (Ne.symm hk)]
      simp only [List.countP_cons]
      omega

/-- Every task is in exactly one of the four states, so the per-state
counts partition the table. -/
theorem status_partition (m : List (String × TaskInfo)) :
    m.countP (fun p => decide (p.2.status = .pending)) +
      m.countP (fun p => decide (p.2.status = .running)) +
      m.countP (fun p => decide (p.2.status = .completed)) +
      m.countP (fun p => decide (p.2.status = .failed)) = m.length := by
  induction m with
  | nil => rfl
  | cons a rest ih =>
    simp only [List.countP_cons, List.length_cons]
    cases h : a.2.status <;> simp [h] <;> omega

/-- `TaskWF` is monotone in the clock bound. -/
theorem TaskWF.mono {clk clk2 : Nat} {t : TaskInfo} (h : TaskWF clk t)
    (hle : clk ≤ clk2) : TaskWF clk2 t where
  created_le := le_trans h.created_le hle
  started_iff := h.started_iff
  completed_iff := h.completed_iff
  result_iff := h.result_iff
  error_iff := h.error_iff
  started_bounds := fun s hs =>
    ⟨(h.started_bounds s hs).1, le_trans (h.started_bounds s hs).2 hle⟩
  completed_bounds := fun c hc =>
    ⟨(h.completed_bounds c hc).1, le_trans (h.completed_bounds c hc).2 hle⟩

/-- Transporting well-formedness along equality of the relevant fields. -/
theorem WF.of_eq {tm tm2 : TaskManager} (h : WF tm)
    (h1 : tm2.task_results = tm.task_results)
    (h2 : tm2.total_submitted = tm.total_submitted)
    (h3 : tm2.total_completed = tm.total_completed)
    (h4 : tm2.total_failed = tm.total_failed)
    (h5 : tm2.managed_agents = tm.managed_agents)
    (h6 : tm2.next_obj_id = tm.next_obj_id)
    (h7 : tm2.clock = tm.clock) : WF tm2 where
  keys_nodup := h1 ▸ h.keys_nodup
  key_eq := h1 ▸ h.key_eq
  task_wf := by rw [h1, h7]; exact h.task_wf
  submitted_eq := by rw [h1, h2]; exact h.submitted_eq
  completed_eq := by rw [h1, h3]; exact h.completed_eq
  failed_eq := by rw [h1, h4]; exact h.failed_eq
  agents_lt := by rw [h5, h6]; exact h.agents_lt

/-- The initial state is well formed. -/
theorem wf_init (n : Nat) : WF (TaskManager.init n) where
  keys_nodup := List.nodup_nil
  key_eq := by intro p hp; simp [TaskManager.init] at hp
  task_wf := by intro p hp; simp [TaskManager.init] at hp
  submitted_eq := rfl
  completed_eq := rfl
  failed_eq := rfl
  agents_lt := by intro p hp; simp [TaskManager.init] at hp

/-- `start` preserves well-formedness. -/
theorem wf_start {tm : TaskManager} (h : WF tm) : WF tm.start := by
  unfold TaskManager.start
  by_cases hr : tm.running
  · simpa [hr] using h
  · refine h.of_eq ?_ ?_ ?_ ?_ ?_ ?_ ?_ <;> simp [hr]

/-- `stop` preserves well-formedness. -/
theorem wf_stop {tm : TaskManager} (h : WF tm) : WF tm.stop := by
  unfold TaskManager.stop
  by_cases hr : tm.running
  · refine h.of_eq ?_ ?_ ?_ ?_ ?_ ?_ ?_ <;> simp [hr]
  · simpa [hr] using h

/-- `register_tools` preserves well-formedness. -/
theorem wf_register_tools {tm : TaskManager} (ts : List (String × ToolFn))
    (h : WF tm) : WF (register_tools tm ts) :=
  h.of_eq rfl rfl rfl rfl rfl rfl rfl

/-- `register_managed_agents` preserves well-formedness: the newly recorded
instance is allocated at the current counter, below the bumped counter. -/
theorem wf_register_agent {tm : TaskManager} (name : String)
    (construct : Except PyErr ToolFn) (h : WF tm) :
    WF (register_managed_agent tm name construct) where
  keys_nodup := h.keys_nodup
  key_eq := h.key_eq
  task_wf := h.task_wf
  submitted_eq := h.submitted_eq
  completed_eq := h.completed_eq
  failed_eq := h.failed_eq
  agents_lt := by
    intro p hp
    simp only [register_managed_agent] at hp
    rcases mem_dictInsert hp with h1 | h1
    · exact Nat.lt_succ_of_lt (h.agents_lt _ h1)
    · rw [h1]
      exact Nat.lt_succ_self _

/-- Decomposition of membership in an updated table. -/
theorem mem_setTask {m : List (String × TaskInfo)} {id : String}
    {f : TaskInfo → TaskInfo} {p : String × TaskInfo}
    (h : p ∈ setTask m id f) :
    ∃ q ∈ m, p = if q.1 = id then (q.1, f q.2) else q := by
  unfold setTask at h
  obtain ⟨q, hq, he⟩ := List.mem_map.mp h
  exact ⟨q, hq, he.symm⟩

/-- With duplicate-free keys, a member whose key is looked up is the
looked-up entry. -/
theorem snd_eq_of_mem_lookup {m : List (String × TaskInfo)}
    (hnd : (m.map Prod.fst).Nodup) {q : String × TaskInfo} (hq : q ∈ m)
    {t : TaskInfo} (hl : m.lookup q.1 = some t) : q.2 = t := by
  have h2 : m.lookup q.1 = some q.2 :=
    lookup_of_mem_nodup hnd (by rw [Prod.mk.eta]; exact hq)
  rw [h2] at hl
  exact Option.some.inj hl

/-- A pending task has no optional field populated. -/
theorem TaskWF.pending_clean {clk : Nat} {t : TaskInfo} (h : TaskWF clk t)
    (hp : t.status = .pending) :
    t.started_at = none ∧ t.completed_at = none ∧ t.result = none ∧
      t.error = none := by
  refine ⟨?_, ?_, ?_, ?_⟩ <;> rw [← Option.not_isSome_iff_eq_none]
  · rw [h.started_iff]; simp [hp]
  · rw [h.completed_iff]; simp [hp]
  · rw [h.result_iff]; simp [hp]
  · rw [h.error_iff]; simp [hp]

/-- A running task has a start time and no terminal field populated. -/
theorem TaskWF.running_clean {clk : Nat} {t : TaskInfo} (h : TaskWF clk t)
    (hr : t.status = .running) :
    t.started_at.isSome ∧ t.completed_at = none ∧ t.result = none ∧
      t.error = none := by
  refine ⟨h.started_iff.mpr (by simp [hr]), ?_, ?_, ?_⟩ <;>
    rw [← Option.not_isSome_iff_eq_none]
  · rw [h.completed_iff]; simp [hr]
  · rw [h.result_iff]; simp [hr]
  · rw [h.error_iff]; simp [hr]

/-- Preservation of well-formedness by a successful submission inserting a
fresh pending task. -/
theorem wf_submit_ok {tm : TaskManager} {tid0 : String} {t : TaskInfo}
    {now : Nat} (h : WF tm) (hclk : tm.clock ≤ now)
    (hfresh : tm.task_results.lookup tid0 = none)
    (hid : t.task_id = tid0) (hst : t.status = .pending)
    (hcr : t.created_at = now) (hsa : t.started_at = none)
    (hca : t.completed_at = none) (hres : t.result = none)
    (herr : t.error = none) :
    WF { tm with
         task_results := dictInsert tm.task_results tid0 t
         total_submitted := tm.total_submitted + 1
         task_queue := tm.task_queue ++ [tid0]
         clock := now } := by
  have hnotmem : tid0 ∉ tm.task_results.map Prod.fst :=
    (lookup_none_iff _ _).mp hfresh
  rw [dictInsert_fresh _ _ _ hfresh]
  constructor
  case keys_nodup =>
    show (List.map Prod.fst (tm.task_results ++ [(tid0, t)])).Nodup
    rw [List.map_append]
    refine List.Nodup.append h.keys_nodup (List.nodup_singleton _) ?_
    intro a ha hb
    simp only [List.map_cons, List.map_nil, List.mem_singleton] at hb
    subst hb
    exact hnotmem ha
  case key_eq =>
    intro p hp
    rcases List.mem_append.mp hp with hp | hp
    · exact h.key_eq p hp
    · rw [List.mem_singleton.mp hp]
      exact hid
  case task_wf =>
    intro p hp
    rcases List.mem_append.mp hp with hp | hp
    · exact (h.task_wf p hp).mono hclk
    · rw [List.mem_singleton.mp hp]
      constructor
      case created_le => rw [hcr]
      case started_iff => rw [hsa, hst]; simp
      case completed_iff => rw [hca, hst]; simp
      case result_iff => rw [hres, hst]; simp
      case error_iff => rw [herr, hst]; simp
      case started_bounds => intro s hs; rw [hsa] at hs; cases hs
      case completed_bounds => intro c hc; rw [hca] at hc; cases hc
  case submitted_eq =>
    show tm.total_submitted + 1 = (tm.task_results ++ [(tid0, t)]).length
    rw [List.length_append, h.submitted_eq]
    rfl
  case completed_eq =>
    show tm.total_completed = _
    rw [List.countP_append, h.completed_eq]
    simp [hst]
  case failed_eq =>
    show tm.total_failed = _
    rw [List.countP_append, h.failed_eq]
    simp [hst]
  case agents_lt => exact h.agents_lt

/-- `submit_task` preserves well-formedness for monotone time readings and
fresh effective task ids. -/
theorem wf_submit {tm : TaskManager} {ty name : String} {args : Args}
    {tid : Option String} {genId : String} {ctx : Option OtelCtx} {now : Nat}
    (h : WF tm) (hclk : tm.clock ≤ now)
    (hfresh : tm.task_results.lookup (tid.getD genId) = none) :
    WF (submit_task tm ty name args tid genId ctx now).2 := by
  unfold submit_task
  by_cases hr : tm.running = false
  · rw [if_pos hr]
    exact h
  · rw [if_neg hr]
    cases hv : validateTarget tm ty name with
    | some e =>
      simp only [hv]
      exact h
    | none =>
      simp only [hv]
      exact wf_submit_ok h hclk hfresh rfl rfl rfl rfl rfl rfl rfl

/-- `startTask` preserves well-formedness when applied to a stored pending
task. -/
theorem wf_startTask {tm : TaskManager} {id : String} {now : Nat}
    {t : TaskInfo} (h : WF tm) (hclk : tm.clock ≤ now)
    (hl : tm.task_results.lookup id = some t) (hp : t.status = .pending) :
    WF (startTask tm id now) := by
  have hwt : TaskWF tm.clock t := h.task_wf (id, t) (lookup_mem hl)
  have hclean := hwt.pending_clean hp
  constructor
  case keys_nodup =>
    simp only [startTask]
    rw [setTask_map_fst]
    exact h.keys_nodup
  case key_eq =>
    simp only [startTask]
    intro p hp2
    obtain ⟨q, hq, he⟩ := mem_setTask hp2
    by_cases hq1 : q.1 = id
    · rw [he, if_pos hq1]
      exact h.key_eq q hq
    · rw [he, if_neg hq1]
      exact h.key_eq q hq
  case task_wf =>
    simp only [startTask]
    intro p hp2
    obtain ⟨q, hq, he⟩ := mem_setTask hp2
    by_cases hq1 : q.1 = id
    · have hqt : q.2 = t := by
        apply snd_eq_of_mem_lookup h.keys_nodup hq
        rw [hq1]
        exact hl
      rw [he, if_pos hq1, hqt]
      refine { created_le := ?_, started_iff := ?_, completed_iff := ?_,
               result_iff := ?_, error_iff := ?_, started_bounds := ?_,
               completed_bounds := ?_ }
      · show t.created_at ≤ now
        exact le_trans hwt.created_le hclk
      · simp [markRunning]
      · simp [markRunning, hclean.2.1]
      · simp [markRunning, hclean.2.2.1]
      · simp [markRunning, hclean.2.2.2]
      · intro s hs
        simp only [markRunning] at hs
        have : now = s := Option.some.inj hs
        subst this
        exact ⟨le_trans hwt.created_le hclk, le_refl _⟩
      · intro c hc
        simp only [markRunning, hclean.2.1] at hc
        cases hc
    · rw [he, if_neg hq1]
      exact (h.task_wf q hq).mono hclk
  case submitted_eq =>
    simp only [startTask]
    rw [setTask_length]
    exact h.submitted_eq
  case completed_eq =>
    have hc := countP_setTask tm.task_results id (markRunning now)
      (fun p => decide (p.2.status = .completed)) h.keys_nodup hl
    simp [markRunning, hp] at hc
    simp only [startTask]
    rw [h.completed_eq, hc]
  case failed_eq =>
    have hc := countP_setTask tm.task_results id (markRunning now)
      (fun p => decide (p.2.status = .failed)) h.keys_nodup hl
    simp [markRunning, hp] at hc
    simp only [startTask]
    rw [h.failed_eq, hc]
  case agents_lt =>
    simp only [startTask]
    exact h.agents_lt

/-- Reduction of `finishTask` once the stored task is known. -/
theorem finishTask_eq {tm : TaskManager} {id : String} {t : TaskInfo}
    (now : Nat) (hl : tm.task_results.lookup id = some t) :
    finishTask tm id now = finishWith tm id now (runInvocable tm t) := by
  unfold finishTask
  rw [hl]

/-- Recording any execution outcome on a stored running task preserves
well-formedness. -/
theorem wf_finishWith {tm : TaskManager} {id : String} {now : Nat}
    {t : TaskInfo} (o : ExecOutcome) (h : WF tm) (hclk : tm.clock ≤ now)
    (hl : tm.task_results.lookup id = some t) (hr : t.status = .running) :
    WF (finishWith tm id now o) := by
  have hwt : TaskWF tm.clock t := h.task_wf (id, t) (lookup_mem hl)
  have hclean := hwt.running_clean hr
  obtain ⟨s0, hs0⟩ := Option.isSome_iff_exists.mp hclean.1
  have hs0b := hwt.started_bounds s0 hs0
  unfold finishWith
  cases hres : o.result with
  | ok v =>
    constructor
    case keys_nodup =>
      rw [setTask_map_fst]
      exact h.keys_nodup
    case key_eq =>
      intro p hp2
      obtain ⟨q, hq, he⟩ := mem_setTask hp2
      by_cases hq1 : q.1 = id
      · rw [he, if_pos hq1]
        exact h.key_eq q hq
      · rw [he, if_neg hq1]
        exact h.key_eq q hq
    case task_wf =>
      intro p hp2
      obtain ⟨q, hq, he⟩ := mem_setTask hp2
      by_cases hq1 : q.1 = id
      · have hqt : q.2 = t := by
          apply snd_eq_of_mem_lookup h.keys_nodup hq
          rw [hq1]
          exact hl
        rw [he, if_pos hq1, hqt]
        refine { created_le := ?_, started_iff := ?_, completed_iff := ?_,
                 result_iff := ?_, error_iff := ?_, started_bounds := ?_,
                 completed_bounds := ?_ }
        · exact le_trans hwt.created_le hclk
        · simp [markCompleted, hclean.1]
        · simp [markCompleted]
        · simp [markCompleted]
        · simp [markCompleted, hclean.2.2.2]
        · intro s hs
          simp only [markCompleted] at hs
          have hb := hwt.started_bounds s hs
          exact ⟨hb.1, le_trans hb.2 hclk⟩
        · intro c hc
          simp only [markCompleted] at hc
          have : now = c := Option.some.inj hc
          subst this
          exact ⟨⟨s0, hs0, le_trans hs0b.2 hclk⟩, le_refl _⟩
      · rw [he, if_neg hq1]
        exact (h.task_wf q hq).mono hclk
    case submitted_eq =>
      rw [setTask_length]
      exact h.submitted_eq
    case completed_eq =>
      have hc := countP_setTask tm.task_results id
        (markCompleted now v o.newArgs)
        (fun p => decide (p.2.status = .completed)) h.keys_nodup hl
      simp [markCompleted, hr] at hc
      show tm.total_completed + 1 =
        List.countP (fun p => decide (p.2.status = TaskStatus.completed))
          (setTask tm.task_results id (markCompleted now v o.newArgs))
      rw [h.completed_eq]
      omega
    case failed_eq =>
      have hc := countP_setTask tm.task_results id
        (markCompleted now v o.newArgs)
        (fun p => decide (p.2.status = .failed)) h.keys_nodup hl
      simp [markCompleted, hr] at hc
      rw [h.failed_eq, hc]
    case agents_lt =>
      intro p hp2
      have := h.agents_lt p hp2
      by_cases hf : o.freshInstance.isSome <;> simp [hf] <;> omega
  | error e =>
    constructor
    case keys_nodup =>
      rw [setTask_map_fst]
      exact h.keys_nodup
    case key_eq =>
      intro p hp2
      obtain ⟨q, hq, he⟩ := mem_setTask hp2
      by_cases hq1 : q.1 = id
      · rw [he, if_pos hq1]
        exact h.key_eq q hq
      · rw [he, if_neg hq1]
        exact h.key_eq q hq
    case task_wf =>
      intro p hp2
      obtain ⟨q, hq, he⟩ := mem_setTask hp2
      by_cases hq1 : q.1 = id
      · have hqt : q.2 = t := by
          apply snd_eq_of_mem_lookup h.keys_nodup hq
          rw [hq1]
          exact hl
        rw [he, if_pos hq1, hqt]
        refine { created_le := ?_, started_iff := ?_, completed_iff := ?_,
                 result_iff := ?_, error_iff := ?_, started_bounds := ?_,
                 completed_bounds := ?_ }
        · exact le_trans hwt.created_le hclk
        · simp [markFailed, hclean.1]
        · simp [markFailed]
        · simp [markFailed, hclean.2.2.1]
        · simp [markFailed]
        · intro s hs
          simp only [markFailed] at hs
          have hb := hwt.started_bounds s hs
          exact ⟨hb.1, le_trans hb.2 hclk⟩
        · intro c hc
          simp only [markFailed] at hc
          have : now = c := Option.some.inj hc
          subst this
          exact ⟨⟨s0, hs0, le_trans hs0b.2 hclk⟩, le_refl _⟩
      · rw [he, if_neg hq1]
        exact (h.task_wf q hq).mono hclk
    case submitted_eq =>
      rw [setTask_length]
      exact h.submitted_eq
    case completed_eq =>
      have hc := countP_setTask tm.task_results id
        (markFailed now (classifyError e) o.newArgs)
        (fun p => decide (p.2.status = .completed)) h.keys_nodup hl
      simp [markFailed, hr] at hc
      rw [h.completed_eq, hc]
    case failed_eq =>
      have hc := countP_setTask tm.task_results id
        (markFailed now (classifyError e) o.newArgs)
        (fun p => decide (p.2.status = .failed)) h.keys_nodup hl
      simp [markFailed, hr] at hc
      show tm.total_failed + 1 =
        List.countP (fun p => decide (p.2.status = TaskStatus.failed))
          (setTask tm.task_results id (markFailed now (classifyError e) o.newArgs))
      rw [h.failed_eq]
      omega
    case agents_lt =>
      intro p hp2
      have := h.agents_lt p hp2
      by_cases hf : o.freshInstance.isSome <;> simp [hf] <;> omega

/-- `finishTask` preserves well-formedness when applied to a stored
running task. -/
theorem wf_finishTask {tm : TaskManager} {id : String} {now : Nat}
    {t : TaskInfo} (h : WF tm) (hclk : tm.clock ≤ now)
    (hl : tm.task_results.lookup id = some t) (hr : t.status = .running) :
    WF (finishTask tm id now) := by
  rw [finishTask_eq now hl]
  exact wf_finishWith _ h hclk hl hr

/-- Every reachable engine state is well formed. -/
theorem reachable_wf {tm : TaskManager} (h : Reachable tm) : WF tm := by
  induction h with
  | init n => exact wf_init n
  | start _ ih => exact wf_start ih
  | stop _ ih => exact wf_stop ih
  | reg_tools ts _ ih => exact wf_register_tools ts ih
  | reg_agent name construct _ ih => exact wf_register_agent name construct ih
  | submit ty name args tid genId ctx now _ hclk hfresh ih =>
      exact wf_submit ih hclk hfresh
  | begin_exec id now t _ hclk hl hp hq ih => exact wf_startTask ih hclk hl hp
  | finish_exec id now t _ hclk hl hr ih => exact wf_finishTask ih hclk hl hr

/-- The demo engine is reachable. -/
theorem demoTM_reachable : Reachable demoTM :=
  .reg_agent "helper" (.ok demoAgentFn)
    (.reg_tools [("double", demoTool), ("boom", boomTool)]
      (.start (.init 3)))

/-- The demo engine with the submitted tool task is reachable. -/
theorem demoTM1_reachable : Reachable demoTM1 :=
  .submit "tool" "boom" (.keyed []) none "task-1" none 5 demoTM_reachable
    (by decide) rfl

/-- The demo engine with the running tool task is reachable. -/
theorem demoTM2_reachable : Reachable demoTM2 :=
  .begin_exec "task-1" 6 _ demoTM1_reachable (by decide) rfl rfl (by decide)

/-- The demo engine with the failed tool task is reachable. -/
theorem demoTM3_reachable : Reachable demoTM3 :=
  .finish_exec "task-1" 7 _ demoTM2_reachable (by decide) rfl rfl

/-- The demo engine with the submitted agent task is reachable. -/
theorem demoAg1_reachable : Reachable demoAg1 :=
  .submit "managed_agent" "helper" (.keyed []) none "task-2" none 5
    demoTM_reachable (by decide) rfl

/-- The demo engine with the running agent task is reachable. -/
theorem demoAg2_reachable : Reachable demoAg2 :=
  .begin_exec "task-2" 6 _ demoAg1_reachable (by decide) rfl rfl (by decide)

/-- C1: `submit_task` raises each of its validation errors synchronously
and never creates a task on failure: the not-running `RuntimeError` when
the engine is not running, the invalid-kind `ValueError` when the kind is
neither of the two variants, and a target-not-found `ValueError` when the
target is absent from the registry implied by the kind, whose message is
the dedicated cross-registry one exactly when the name exists in the other
registry; on every error the state (results table, counters, queue) is
returned unchanged. -/
theorem submit_validation_errors (tm : TaskManager) (ty name : String)
    (args : Args) (tid : Option String) (genId : String)
    (ctx : Option OtelCtx) (now : Nat) :
    (tm.running = false →
      (submit_task tm ty name args tid genId ctx now).1 =
        .error ⟨"RuntimeError", notRunningMsg⟩) ∧
    (tm.running = true → ty ≠ "tool" → ty ≠ "managed_agent" →
      (submit_task tm ty name args tid genId ctx now).1 =
        .error ⟨"ValueError", invalidKindMsg ty⟩) ∧
    (tm.running = true → ty = "tool" → tm.tools.lookup name = none →
      (submit_task tm ty name args tid genId ctx now).1 =
        .error ⟨"ValueError",
          if (tm.managed_agents.lookup name).isSome then agentNotToolMsg name
          else toolNotFoundMsg name⟩) ∧
    (tm.running = true → ty = "managed_agent" →
        tm.managed_agents.lookup name = none →
      (submit_task tm ty name args tid genId ctx now).1 =
        .error ⟨"ValueError",
          if (tm.tools.lookup name).isSome then toolNotAgentMsg name
          else agentNotFoundMsg name⟩) ∧
    (∀ e, (submit_task tm ty name args tid genId ctx now).1 = .error e →
      (submit_task tm ty name args tid genId ctx now).2 = tm) := by
  refine ⟨?_, ?_, ?_, ?_, ?_⟩
  · intro hr
    simp [submit_task, hr]
  · intro hr h1 h2
    have hb1 : (ty == "tool") = false := by simp [h1]
    have hb2 : (ty == "managed_agent") = false := by simp [h2]
    simp [submit_task, hr, validateTarget, hb1, hb2]
  · intro hr hty hn
    subst hty
    by_cases hm : (tm.managed_agents.lookup name).isSome <;>
      simp [submit_task, hr, validateTarget, hn, hm]
  · intro hr hty hn
    subst hty
    by_cases hm : (tm.tools.lookup name).isSome <;>
      simp [submit_task, hr, validateTarget, hn, hm]
  · intro e he
    unfold submit_task at he ⊢
    by_cases hr : tm.running = false
    · rw [if_pos hr]
    · rw [if_neg hr] at he ⊢
      cases hv : validateTarget tm ty name with
      | some e2 => simp [hv]
      | none => simp [hv] at he

/-- Witness for C1: submitting an unknown tool name on the started demo
engine fails with the not-found message and leaves the state unchanged. -/
theorem submit_validation_errors_witness :
    (submit_task demoTM "tool" "missing" (.keyed []) none "id0" none 5).1 =
      .error ⟨"ValueError", toolNotFoundMsg "missing"⟩ ∧
    (submit_task demoTM "tool" "missing" (.keyed []) none "id0" none 5).2 =
      demoTM := by
  have h := submit_validation_errors demoTM "tool" "missing" (.keyed [])
    none "id0" none 5
  have h3 := h.2.2.1 rfl rfl rfl
  exact ⟨h3, h.2.2.2.2 _ h3⟩

/-- C5: a successful `submit_task` returns the caller-supplied id (or the
generated one when absent) immediately; it stores, under that id, a task in
`Pending` state with `created_at = now`, the given arguments and the
captured trace context, appends the id to the queue, increments the
submitted counter by one, and touches nothing else (other counters and
registries unchanged). -/
theorem submit_success (tm : TaskManager) (ty name : String) (args : Args)
    (tid : Option String) (genId : String) (ctx : Option OtelCtx) (now : Nat)
    (hr : tm.running = true)
    (hv : validateTarget tm ty name = none)
    (hfresh : tm.task_results.lookup (tid.getD genId) = none) :
    (submit_task tm ty name args tid genId ctx now).1 =
      .ok (tid.getD genId) ∧
    (submit_task tm ty name args tid genId ctx now).2.task_results =
      tm.task_results ++ [(tid.getD genId,
        { task_id := tid.getD genId, task_type := ty, target_name := name
          arguments := args, status := .pending, created_at := now
          started_at := none, completed_at := none, result := none
          error := none, otel_context := ctx })] ∧
    (submit_task tm ty name args tid genId ctx now).2.total_submitted =
      tm.total_submitted + 1 ∧
    (submit_task tm ty name args tid genId ctx now).2.task_queue =
      tm.task_queue ++ [tid.getD genId] ∧
    (submit_task tm ty name args tid genId ctx now).2.total_completed =
      tm.total_completed ∧
    (submit_task tm ty name args tid genId ctx now).2.total_failed =
      tm.total_failed ∧
    (submit_task tm ty name args tid genId ctx now).2.tools = tm.tools ∧
    (submit_task tm ty name args tid genId ctx now).2.managed_agents =
      tm.managed_agents := by
  have hnr : ¬(tm.running = false) := by rw [hr]; simp
  unfold submit_task
  rw [if_neg hnr]
  simp only [hv]
  rw [dictInsert_fresh _ _ _ hfresh]
  simp

/-- Witness for C5: submitting the known demo tool with id `"id5"`
returns that id and appends the pending record. -/
theorem submit_success_witness :
    (submit_task demoTM "tool" "double" (.keyed [("x", .vint 21)])
        (some "id5") "gen" none 9).1 = .ok "id5" ∧
    (submit_task demoTM "tool" "double" (.keyed [("x", .vint 21)])
        (some "id5") "gen" none 9).2.total_submitted =
      demoTM.total_submitted + 1 := by
  have h := submit_success demoTM "tool" "double"
    (.keyed [("x", .vint 21)]) (some "id5") "gen" none 9 rfl rfl rfl
  exact ⟨h.1, h.2.2.1⟩

/-- C2: when the invocable of a dequeued running task raises, the worker
captures the failure on the task record rather than propagating it: the
task becomes `Failed`, `completed_at` is recorded, the failed counter is
incremented, and the error field holds `kind: message` for a generic
exception but the distinct incomplete-execution message (suggesting more
steps) for the narrow `UnboundLocalError` class. -/
theorem worker_captures_failure (tm : TaskManager) (id : String) (now : Nat)
    (t : TaskInfo) (e : PyErr)
    (hl : tm.task_results.lookup id = some t)
    (hrun : t.status = .running)
    (he : (runInvocable tm t).result = .error e) :
    ∃ t2, (finishTask tm id now).task_results.lookup id = some t2 ∧
      t2.status = .failed ∧
      t2.completed_at = some now ∧
      (finishTask tm id now).total_failed = tm.total_failed + 1 ∧
      (e.kind ≠ "UnboundLocalError" →
        t2.error = some (e.kind ++ ": " ++ e.msg)) ∧
      (e.kind = "UnboundLocalError" →
        t2.error = some (incompleteExecMsg e.msg)) := by
  rw [finishTask_eq now hl]
  unfold finishWith
  rw [he]
  refine ⟨markFailed now (classifyError e) (runInvocable tm t).newArgs t,
    lookup_setTask_self _ hl, rfl, rfl, rfl, ?_, ?_⟩
  · intro hk
    have hb : (e.kind == "UnboundLocalError") = false := by simp [hk]
    simp [markFailed, classifyError, hb]
  · intro hk
    have hb : (e.kind == "UnboundLocalError") = true := by simp [hk]
    simp [markFailed, classifyError, hb]

/-- Witness for C2 (Scenario C): the demo tool raising
`ValueError("boom")` leaves the task `Failed` with error
`"ValueError: boom"` and bumps the failed counter. -/
theorem worker_captures_failure_witness :
    ∃ t2,
      (finishTask demoTM2 "task-1" 7).task_results.lookup "task-1" =
        some t2 ∧
      t2.status = .failed ∧
      t2.completed_at = some 7 ∧
      (finishTask demoTM2 "task-1" 7).total_failed =
        demoTM2.total_failed + 1 ∧
      t2.error = some "ValueError: boom" := by
  have h := worker_captures_failure demoTM2 "task-1" 7 _
    ⟨"ValueError", "boom"⟩ rfl rfl rfl
  obtain ⟨t2, h1, h2, h3, h4, h5, h6⟩ := h
  exact ⟨t2, h1, h2, h3, h4, h5 (by decide)⟩

/-- C3: in every reachable engine state, every stored task has at most one
of `result`/`error` populated, `result` is populated exactly when the
status is `Completed`, `error` exactly when it is `Failed`, and both are
empty in the `Pending` and `Running` states. -/
theorem result_error_exclusive (tm : TaskManager) (hreach : Reachable tm) :
    ∀ p ∈ tm.task_results,
      (p.2.result.isSome → p.2.error = none) ∧
      (p.2.error.isSome → p.2.result = none) ∧
      (p.2.result.isSome ↔ p.2.status = .completed) ∧
      (p.2.error.isSome ↔ p.2.status = .failed) ∧
      ((p.2.status = .pending ∨ p.2.status = .running) →
        p.2.result = none ∧ p.2.error = none) := by
  intro p hp
  have hw := (reachable_wf hreach).task_wf p hp
  refine ⟨?_, ?_, hw.result_iff, hw.error_iff, ?_⟩
  · intro hs
    have hc := hw.result_iff.mp hs
    rw [← Option.not_isSome_iff_eq_none, hw.error_iff, hc]
    simp
  · intro hs
    have hc := hw.error_iff.mp hs
    rw [← Option.not_isSome_iff_eq_none, hw.result_iff, hc]
    simp
  · intro hs
    constructor <;> rw [← Option.not_isSome_iff_eq_none]
    · rw [hw.result_iff]
      rcases hs with hs | hs <;> simp [hs]
    · rw [hw.error_iff]
      rcases hs with hs | hs <;> simp [hs]

/-- Witness for C3: the failed demo task stores an error, no result, and
its populated field matches its status. -/
theorem result_error_exclusive_witness :
    demoFailedTask.error.isSome = true ∧
    demoFailedTask.result = none ∧
    (demoFailedTask.result.isSome ↔ demoFailedTask.status = .completed) := by
  have h := result_error_exclusive demoTM3 demoTM3_reachable
    ("task-1", demoFailedTask) (by decide)
  exact ⟨by decide, h.2.1 (by decide), h.2.2.1⟩

/-- C4: in every reachable engine state, the populated timestamps of every
stored task are ordered `created_at ≤ started_at ≤ completed_at`;
`started_at` is populated exactly once the task has left `Pending` and
`completed_at` exactly once it is terminal. -/
theorem timestamps_ordered (tm : TaskManager) (hreach : Reachable tm) :
    ∀ p ∈ tm.task_results,
      (∀ s, p.2.started_at = some s → p.2.created_at ≤ s) ∧
      (∀ s c, p.2.started_at = some s → p.2.completed_at = some c →
        s ≤ c) ∧
      (∀ c, p.2.completed_at = some c →
        ∃ s, p.2.started_at = some s ∧ p.2.created_at ≤ s ∧ s ≤ c) ∧
      (p.2.started_at.isSome ↔ p.2.status ≠ .pending) ∧
      (p.2.completed_at.isSome ↔
        (p.2.status = .completed ∨ p.2.status = .failed)) := by
  intro p hp
  have hw := (reachable_wf hreach).task_wf p hp
  refine ⟨?_, ?_, ?_, hw.started_iff, hw.completed_iff⟩
  · intro s hs
    exact (hw.started_bounds s hs).1
  · intro s c hs hc
    obtain ⟨⟨s0, hs0, hs0c⟩, _⟩ := hw.completed_bounds c hc
    rw [hs] at hs0
    rw [Option.some.inj hs0]
    exact hs0c
  · intro c hc
    obtain ⟨⟨s0, hs0, hs0c⟩, _⟩ := hw.completed_bounds c hc
    exact ⟨s0, hs0, (hw.started_bounds s0 hs0).1, hs0c⟩

/-- Witness for C4: the failed demo task was created at 5, started at 6
and completed at 7, in order. -/
theorem timestamps_ordered_witness :
    demoFailedTask.created_at ≤ 6 ∧ (6 : Nat) ≤ 7 := by
  have h := timestamps_ordered demoTM3 demoTM3_reachable
    ("task-1", demoFailedTask) (by decide)
  exact ⟨h.1 6 rfl, h.2.1 6 7 rfl rfl⟩

/-- C8: `get_statistics` computes `pending` and `running` by scanning the
current task table while the three totals are the stored monotonic
counters; in every reachable state the counters agree with the table, so
after N submissions with K completions and F failures it reports
`submitted = N`, `completed = K`, `failed = F` and
`pending + running = N - K - F`. -/
theorem statistics_consistent (tm : TaskManager) (hreach : Reachable tm) :
    (get_statistics tm).pending =
      tm.task_results.countP (fun p => decide (p.2.status = .pending)) ∧
    (get_statistics tm).running =
      tm.task_results.countP (fun p => decide (p.2.status = .running)) ∧
    (get_statistics tm).total_submitted = tm.task_results.length ∧
    (get_statistics tm).total_completed =
      tm.task_results.countP (fun p => decide (p.2.status = .completed)) ∧
    (get_statistics tm).total_failed =
      tm.task_results.countP (fun p => decide (p.2.status = .failed)) ∧
    (get_statistics tm).pending + (get_statistics tm).running +
      (get_statistics tm).total_completed +
      (get_statistics tm).total_failed =
      (get_statistics tm).total_submitted ∧
    (get_statistics tm).pending + (get_statistics tm).running =
      (get_statistics tm).total_submitted -
        ((get_statistics tm).total_completed +
          (get_statistics tm).total_failed) := by
  have hw := reachable_wf hreach
  have hpart := status_partition tm.task_results
  refine ⟨rfl, rfl, hw.submitted_eq, hw.completed_eq, hw.failed_eq, ?_, ?_⟩
  · show tm.task_results.countP _ + tm.task_results.countP _ +
      tm.total_completed + tm.total_failed = tm.total_submitted
    rw [hw.completed_eq, hw.failed_eq, hw.submitted_eq]
    omega
  · show tm.task_results.countP _ + tm.task_results.countP _ =
      tm.total_submitted - (tm.total_completed + tm.total_failed)
    rw [hw.completed_eq, hw.failed_eq, hw.submitted_eq]
    omega

/-- Witness for C8: on the demo engine with one failed task the counts
partition the single submission. -/
theorem statistics_consistent_witness :
    (get_statistics demoTM3).pending + (get_statistics demoTM3).running +
      (get_statistics demoTM3).total_completed +
      (get_statistics demoTM3).total_failed =
      (get_statistics demoTM3).total_submitted :=
  (statistics_consistent demoTM3 demoTM3_reachable).2.2.2.2.2.1

/-- C9: `list_tasks` returns a snapshot of all stored tasks, keeps exactly
those matching the optional status filter, and orders the output by
`created_at` descending regardless of completion order. -/
theorem list_tasks_snapshot_sorted (tm : TaskManager)
    (status_filter : Option TaskStatus) :
    (list_tasks tm none).Perm (tm.task_results.map Prod.snd) ∧
    (∀ s, (list_tasks tm (some s)).Perm
      ((tm.task_results.map Prod.snd).filter
        (fun t => decide (t.status = s)))) ∧
    (list_tasks tm status_filter).Pairwise
      (fun a b => b.created_at ≤ a.created_at) := by
  have htrans : ∀ a b c : TaskInfo,
      decide (b.created_at ≤ a.created_at) = true →
      decide (c.created_at ≤ b.created_at) = true →
      decide (c.created_at ≤ a.created_at) = true := by
    intro a b c h1 h2
    simp at h1 h2 ⊢
    omega
  have htotal : ∀ a b : TaskInfo,
      (decide (b.created_at ≤ a.created_at) ||
        decide (a.created_at ≤ b.created_at)) = true := by
    intro a b
    by_cases h : b.created_at ≤ a.created_at <;> simp [h] <;> omega
  refine ⟨?_, ?_, ?_⟩
  · exact List.mergeSort_perm _ _
  · intro s
    exact List.mergeSort_perm _ _
  · have hs := List.sorted_mergeSort htrans htotal
      (match status_filter with
       | some s => (tm.task_results.map Prod.snd).filter
           (fun t => decide (t.status = s))
       | none => tm.task_results.map Prod.snd)
    unfold list_tasks
    cases status_filter with
    | none =>
      refine (hs.imp ?_)
      intro a b hab
      simpa using hab
    | some s =>
      refine ((List.sorted_mergeSort htrans htotal _).imp ?_)
      intro a b hab
      simpa using hab

/-- C7: the worker forwards keyed arguments as keyword arguments and a
non-keyed argument as a single positional value; a managed-agent call with
keyed arguments lacking `max_steps` gets the default budget of 20 injected
before the call, while tool calls and caller-supplied budgets are passed
unaltered. -/
theorem argument_forwarding (tm : TaskManager) (t : TaskInfo) :
    (∀ tool, t.task_type = "tool" →
      tm.tools.lookup t.target_name = some tool →
      (runInvocable tm t).callInput = some t.arguments ∧
      (runInvocable tm t).result = tool t.arguments) ∧
    (∀ entry b m, t.task_type = "managed_agent" →
      tm.managed_agents.lookup t.target_name = some entry →
      entry.construct = .ok b → t.arguments = .keyed m →
      (containsKey m "max_steps" = false →
        (runInvocable tm t).callInput =
          some (.keyed (m ++ [("max_steps", Value.vint 20)])) ∧
        (runInvocable tm t).result =
          b (.keyed (m ++ [("max_steps", Value.vint 20)]))) ∧
      (containsKey m "max_steps" = true →
        (runInvocable tm t).callInput = some (.keyed m) ∧
        (runInvocable tm t).result = b (.keyed m))) ∧
    (∀ entry b v, t.task_type = "managed_agent" →
      tm.managed_agents.lookup t.target_name = some entry →
      entry.construct = .ok b → t.arguments = .positional v →
      (runInvocable tm t).callInput = some (.positional v) ∧
      (runInvocable tm t).result = b (.positional v)) := by
  refine ⟨?_, ?_, ?_⟩
  · intro tool hty hlook
    rw [runInvocable, hty]
    simp [hlook]
  · intro entry b m hty hlook hc hargs
    rw [runInvocable, hty]
    simp only [hlook, hargs, hc]
    constructor
    · intro hck
      simp [injectMaxSteps, hck]
    · intro hck
      simp [injectMaxSteps, hck]
  · intro entry b v hty hlook hc hargs
    rw [runInvocable, hty]
    simp [hlook, hargs, hc]

/-- Witness for C7: calling the demo managed agent with keyed arguments
lacking `max_steps` injects the default budget of 20. -/
theorem argument_forwarding_witness :
    (runInvocable demoTM demoAgTask).callInput =
      some (.keyed [("task", .vstr "analyse"), ("max_steps", .vint 20)]) := by
  have h := (argument_forwarding demoTM demoAgTask).2.1
    ⟨0, .ok demoAgentFn⟩ demoAgentFn [("task", .vstr "analyse")]
    rfl rfl rfl rfl
  exact (h.1 (by decide)).1

/-- C6: executing a managed-agent task constructs a fresh instance from
the registration-time snapshot for that call only: the invoked instance is
the freshly allocated object, never the registered original, and two
successive executions never share an instance; when construction from the
snapshot raises, the task fails with the wrapping
`Failed to create agent copy` error instead of executing. -/
theorem managed_agent_isolation (tm : TaskManager) (id : String) (now : Nat)
    (t : TaskInfo) (entry : AgentEntry)
    (hreach : Reachable tm)
    (hl : tm.task_results.lookup id = some t)
    (hrun : t.status = .running)
    (hty : t.task_type = "managed_agent")
    (hentry : tm.managed_agents.lookup t.target_name = some entry) :
    (∀ b, entry.construct = .ok b →
      (runInvocable tm t).freshInstance = some tm.next_obj_id ∧
      tm.next_obj_id ≠ entry.original_id ∧
      (finishTask tm id now).next_obj_id = tm.next_obj_id + 1) ∧
    (∀ b t2 e2 b2 i1 i2, entry.construct = .ok b →
      t2.task_type = "managed_agent" →
      (finishTask tm id now).managed_agents.lookup t2.target_name =
        some e2 →
      e2.construct = .ok b2 →
      (runInvocable tm t).freshInstance = some i1 →
      (runInvocable (finishTask tm id now) t2).freshInstance = some i2 →
      i1 ≠ i2) ∧
    (∀ e, entry.construct = .error e →
      (runInvocable tm t).callInput = none ∧
      ∃ t3, (finishTask tm id now).task_results.lookup id = some t3 ∧
        t3.status = .failed ∧
        t3.error =
          some ("RuntimeError: " ++ createCopyFailedMsg e.msg)) := by
  have hwf := reachable_wf hreach
  have hfi : ∀ b, entry.construct = .ok b →
      (runInvocable tm t).freshInstance = some tm.next_obj_id := by
    intro b hb
    cases hargs : t.arguments with
    | keyed m =>
      rw [runInvocable, hty]
      simp [hentry, hb, hargs]
    | positional v =>
      rw [runInvocable, hty]
      simp [hentry, hb, hargs]
  have hnext : ∀ b, entry.construct = .ok b →
      (finishTask tm id now).next_obj_id = tm.next_obj_id + 1 := by
    intro b hb
    rw [finishTask_eq now hl]
    unfold finishWith
    cases hres : (runInvocable tm t).result <;> simp [hfi b hb]
  refine ⟨?_, ?_, ?_⟩
  · intro b hb
    refine ⟨hfi b hb, ?_, hnext b hb⟩
    have hlt := hwf.agents_lt (t.target_name, entry) (lookup_mem hentry)
    simp only at hlt
    omega
  · intro b t2 e2 b2 i1 i2 hb hty2 hlook2 hb2 hi1 hi2
    have hfi2 : (runInvocable (finishTask tm id now) t2).freshInstance =
        some (finishTask tm id now).next_obj_id := by
      cases hargs2 : t2.arguments with
      | keyed m =>
        rw [runInvocable, hty2]
        simp [hlook2, hb2, hargs2]
      | positional v =>
        rw [runInvocable, hty2]
        simp [hlook2, hb2, hargs2]
    rw [hfi b hb] at hi1
    rw [hfi2, hnext b hb] at hi2
    have e1 : i1 = tm.next_obj_id := (Option.some.inj hi1).symm
    have e2q : i2 = tm.next_obj_id + 1 := (Option.some.inj hi2).symm
    omega
  · intro e he
    have hout : runInvocable tm t =
        { callInput := none, freshInstance := none, newArgs := t.arguments
          result := .error ⟨"RuntimeError", createCopyFailedMsg e.msg⟩ } := by
      rw [runInvocable, hty]
      simp [hentry, he]
    refine ⟨by rw [hout], ?_⟩
    rw [finishTask_eq now hl]
    unfold finishWith
    rw [hout]
    refine ⟨markFailed now
      (classifyError ⟨"RuntimeError", createCopyFailedMsg e.msg⟩)
      t.arguments t, lookup_setTask_self _ hl, rfl, ?_⟩
    rfl

/-- Witness for C6: executing the running demo managed-agent task bumps
the allocation counter and the invoked instance differs from the
registered original (allocated at 0). -/
theorem managed_agent_isolation_witness :
    (finishTask demoAg2 "task-2" 7).next_obj_id =
      demoAg2.next_obj_id + 1 ∧
    demoAg2.next_obj_id ≠ 0 := by
  have h := managed_agent_isolation demoAg2 "task-2" 7 _
    ⟨0, .ok demoAgentFn⟩ demoAg2_reachable rfl rfl rfl rfl
  have h1 := h.1 demoAgentFn rfl
  exact ⟨h1.2.2, h1.2.1⟩

/-- Witness for C9: the unfiltered listing of the demo engine is sorted by
creation time descending. -/
theorem list_tasks_snapshot_sorted_witness :
    (list_tasks demoTM3 none).Pairwise
      (fun a b => b.created_at ≤ a.created_at) :=
  (list_tasks_snapshot_sorted demoTM3 none).2.2

/-- C10: executing a managed-agent task whose keyed arguments lack
`max_steps` mutates the stored task record itself: after execution,
`get_task_result` observes the injected `max_steps = 20` entry in the
arguments, so the arguments are not preserved verbatim as submitted, while
every field other than status, timestamps, result and error is unchanged. -/
theorem exec_mutates_stored_arguments (tm : TaskManager) (id : String)
    (now : Nat) (t : TaskInfo) (entry : AgentEntry) (b : ToolFn)
    (m : List (String × Value))
    (hl : tm.task_results.lookup id = some t)
    (hty : t.task_type = "managed_agent")
    (hentry : tm.managed_agents.lookup t.target_name = some entry)
    (hb : entry.construct = .ok b)
    (hargs : t.arguments = .keyed m)
    (hck : containsKey m "max_steps" = false) :
    ∃ t2, get_task_result (finishTask tm id now) id = some t2 ∧
      t2.arguments = .keyed (m ++ [("max_steps", Value.vint 20)]) ∧
      t2.arguments ≠ t.arguments ∧
      t2.task_id = t.task_id ∧
      t2.task_type = t.task_type ∧
      t2.target_name = t.target_name ∧
      t2.created_at = t.created_at ∧
      t2.started_at = t.started_at ∧
      t2.otel_context = t.otel_context := by
  have hout : runInvocable tm t =
      { callInput := some (.keyed (m ++ [("max_steps", Value.vint 20)]))
        freshInstance := some tm.next_obj_id
        newArgs := .keyed (m ++ [("max_steps", Value.vint 20)])
        result := b (.keyed (m ++ [("max_steps", Value.vint 20)])) } := by
    rw [runInvocable, hty]
    simp [hentry, hb, hargs, injectMaxSteps, hck]
  have hne : Args.keyed (m ++ [("max_steps", Value.vint 20)]) ≠
      t.arguments := by
    rw [hargs]
    intro hcontra
    have hlen := congrArg
      (fun a => match a with | Args.keyed l => l.length | _ => 0) hcontra
    simp at hlen
  rw [finishTask_eq now hl]
  unfold finishWith get_task_result
  rw [hout]
  cases hres : b (.keyed (m ++ [("max_steps", Value.vint 20)])) with
  | ok v =>
    exact ⟨markCompleted now v (.keyed (m ++ [("max_steps", Value.vint 20)]))
      t, lookup_setTask_self _ hl, rfl, hne, rfl, rfl, rfl, rfl, rfl, rfl⟩
  | error e =>
    exact ⟨markFailed now (classifyError e)
      (.keyed (m ++ [("max_steps", Value.vint 20)])) t,
      lookup_setTask_self _ hl, rfl, hne, rfl, rfl, rfl, rfl, rfl, rfl⟩

/-- Witness for C10: after executing the running demo managed-agent task
(submitted with empty keyed arguments), the stored record shows the
injected default budget. -/
theorem exec_mutates_stored_arguments_witness :
    ∃ t2, get_task_result (finishTask demoAg2 "task-2" 7) "task-2" =
        some t2 ∧
      t2.arguments = .keyed [("max_steps", Value.vint 20)] := by
  have h := exec_mutates_stored_arguments demoAg2 "task-2" 7 _
    ⟨0, .ok demoAgentFn⟩ demoAgentFn [] rfl rfl rfl rfl rfl (by decide)
  obtain ⟨t2, h1, h2, _⟩ := h
  exact ⟨t2, h1, h2⟩

end AsyncTaskSystem
